import Mathlib

/-
Verification development for the satmap package.

The definitions below are a shallow embedding of the functions in
src/satmap/utils.py.  External collaborators (the pyephem propagation
engine, the matplotlib colormap, the network fetch) are modelled as
abstract function parameters; everything the repository itself computes
is translated directly.

Numeric angle values (azimuth, elevation, sub-latitude, sub-longitude)
are modelled as real numbers; timestamps are modelled as abstract
instants (natural numbers).
-/

set_option maxHeartbeats 1000000

/-! ### Path helpers: os.path.basename, os.path.splitext, str.upper

`read_tle_files` derives the group key of a catalog URL as
`os.path.splitext(os.path.basename(tle_file))[0].upper()`.
-/

/-- `os.path.basename` on a POSIX path: the part after the last slash. -/
def basenameChars (l : List Char) : List Char :=
  (l.reverse.takeWhile (fun c => c ≠ '/')).reverse

/-- The root part of `os.path.splitext` for a slash-free file name, per
CPython: the extension starts at the last dot, unless every character in
front of that dot is itself a dot, in which case there is no extension. -/
def splitextRoot (l : List Char) : List Char :=
  if '.' ∈ l then
    let ext := '.' :: (l.reverse.takeWhile (fun c => c ≠ '.')).reverse
    let root := l.take (l.length - ext.length)
    if root.all (fun c => c = '.') then l else root
  else l

/-- The satellite-group key that `read_tle_files` derives from a catalog
URL: base file name, extension removed, upper-cased. -/
def groupKey (url : String) : String :=
  ⟨((splitextRoot (basenameChars url.data)).map Char.toUpper)⟩

/-! ### read_tle_files

The loop body of `read_tle_files` enumerates the fetched lines and, at
every index `i` with `i % 3 == 2`, calls
`ephem.readtle(lines[i-2], lines[i-1], lines[i])` and appends the result.
The external parser `ephem.readtle` is an abstract parameter `readtle`.
-/

/-- The inner loop of `read_tle_files` over the lines of one fetched
catalog: one record per line index `i` with `i % 3 = 2`, built from lines
`i-2`, `i-1`, `i`.  (The `getD` default is never reached: every index
drawn from `List.range lines.length` is in bounds.) -/
def readSats {α : Type} (readtle : String → String → String → α)
    (lines : List String) : List α :=
  (List.range lines.length).filterMap fun i =>
    if i % 3 = 2 then
      some (readtle (lines.getD (i - 2) "") (lines.getD (i - 1) "") (lines.getD i ""))
    else none

/-- Modelled from the spec, for comparison with `readSats`: every three
consecutive lines form exactly one record, and a trailing partial group
of fewer than three lines is dropped. -/
def specTripletRecords {α : Type} (readtle : String → String → String → α) :
    List String → List α
  | l0 :: l1 :: l2 :: rest => readtle l0 l1 l2 :: specTripletRecords readtle rest
  | _ => []

/-- Python dict assignment `d[k] = v`: if the key is present its value is
replaced at its original position, otherwise the pair is appended. -/
def dictInsert {α : Type} (d : List (String × α)) (k : String) (v : α) :
    List (String × α) :=
  if k ∈ d.map Prod.fst then
    d.map fun p => if p.1 = k then (p.1, v) else p
  else d ++ [(k, v)]

/-- `read_tle_files`: fold over the catalog URLs, deriving the group key
of each URL and storing the records parsed from the fetched lines in an
insertion-ordered dictionary.  The network fetch is the abstract
parameter `fetch` (URL to list of lines of the response body). -/
def read_tle_files {α : Type} (readtle : String → String → String → α)
    (fetch : String → List String) (tle_files : List String) :
    List (String × List α) :=
  tle_files.foldl (fun d u => dictInsert d (groupKey u) (readSats readtle (fetch u))) []

/-! ### Data model: observers and computed satellite records

`get_observer` builds a PyEphem observer from the latitude/longitude
strings returned by `get_current_latlon` and an observation time;
the propagation engine later derives, for every satellite record, its
azimuth, elevation, sub-latitude and sub-longitude (radians).
-/

/-- A PyEphem observer as built by `get_observer`: latitude and longitude
are stored as handed in (raw strings), the date is an abstract UTC
instant. -/
structure Observer where
  lat : String
  lon : String
  date : Nat
deriving DecidableEq

/-- `get_observer` with an explicit observation time: set longitude,
latitude and date on a fresh observer. -/
def get_observer (lat lon : String) (obs_time : Nat) : Observer :=
  { lat := lat, lon := lon, date := obs_time }

/-- A satellite record after the propagation engine computed its
position: azimuth, elevation (`alt`), sub-latitude and sub-longitude,
all in radians. -/
structure Sat where
  name : String
  az : ℝ
  alt : ℝ
  sublat : ℝ
  sublong : ℝ

/-- numpy `rad2deg`: radians to degrees. -/
noncomputable def rad2deg (x : ℝ) : ℝ := x * (180 / Real.pi)

/-- Degrees to radians; used to state claims about elevations that are
given in degrees. -/
noncomputable def deg2rad (x : ℝ) : ℝ := x * (Real.pi / 180)

/-! ### compute_sat_positions -/

/-- The inner loop of `compute_sat_positions` over the records of one
group: the first component holds the records after the in-place
`sat.compute(observer)` mutation, the second the trace of records the
compute step was invoked on, in invocation order. -/
def computeGroup (compute : Observer → Sat → Sat) (observer : Observer) :
    List Sat → List Sat × List Sat
  | [] => ([], [])
  | s :: rest =>
    let r := computeGroup compute observer rest
    (compute observer s :: r.1, s :: r.2)

/-- `compute_sat_positions`: sequentially traverse the groups, then the
records within each group, invoking the compute step on every record.
The first component is the mapping as it stands after the mutations (the
Python function returns the very mapping it mutated), the second the
full invocation trace. -/
def compute_sat_positions (compute : Observer → Sat → Sat) (observer : Observer) :
    List (String × List Sat) → List (String × List Sat) × List Sat
  | [] => ([], [])
  | (k, g) :: rest =>
    let cg := computeGroup compute observer g
    let r := compute_sat_positions compute observer rest
    ((k, cg.1) :: r.1, cg.2 ++ r.2)

/-! ### plot_polar_azel -/

/-- The per-group visibility filter of `plot_polar_azel`: keep exactly
the satellites with `sat.alt > 0`. -/
noncomputable def visibleSats (sat_group : List Sat) : List Sat :=
  sat_group.filter fun s => decide (s.alt > 0)

/-- The radial coordinate `plot_polar_azel` plots for one satellite:
`90 - np.rad2deg(sat.alt)`. -/
noncomputable def plottedRadius (s : Sat) : ℝ := 90 - rad2deg s.alt

/-- The scatter points (theta = azimuth, r = radial coordinate) that
`plot_polar_azel` draws for one group. -/
noncomputable def polarPoints (sat_group : List Sat) : List (ℝ × ℝ) :=
  (visibleSats sat_group).map fun s => (s.az, plottedRadius s)

/-- A concrete satellite record sitting exactly on the horizon
(elevation 0). -/
noncomputable def horizonSat : Sat := ⟨"HORIZON", 0, 0, 0, 0⟩

/-- A concrete satellite record at the zenith (elevation 90 degrees). -/
noncomputable def zenithSat : Sat := ⟨"ZENITH", 0, deg2rad 90, 0, 0⟩

/-! ### plot_ground_tracks -/

/-- The ground-track point `plot_ground_tracks` computes for one
satellite: sub-latitude and sub-longitude, converted to degrees. -/
noncomputable def groundTrackPoint (s : Sat) : ℝ × ℝ :=
  (rad2deg s.sublat, rad2deg s.sublong)

/-- All the points `plot_ground_tracks` scatters for one group: one per
record, no filtering. -/
noncomputable def groundTrackPoints (sat_group : List Sat) : List (ℝ × ℝ) :=
  sat_group.map groundTrackPoint

/-- The figure produced by `plot_ground_tracks`: one labelled scatter per
group (label = group key) and the timestamp used for the night-shade
overlay and the title. -/
structure GroundTrackFig where
  groups : List (String × List (ℝ × ℝ))
  shadeTime : Nat

/-- `plot_ground_tracks` with an explicit observation time. -/
noncomputable def plot_ground_tracks (sat_groups : List (String × List Sat))
    (obs_time : Nat) : GroundTrackFig :=
  ⟨sat_groups.map (fun g => (g.1, groundTrackPoints g.2)), obs_time⟩

/-- A concrete satellite record below the horizon (elevation -1 radian). -/
noncomputable def belowHorizonSat : Sat := ⟨"BELOW", 0, -1, 0, 0⟩

/-! ### Default timestamp arguments

Both `get_observer` and `plot_ground_tracks` declare the parameter
`obs_time=dt.datetime.utcnow()`.  Python evaluates a default-argument
expression once, when the `def` statement executes at module import,
not at each call; the model below records the two captured values. -/

/-- The default values captured when src/satmap/utils.py is imported at
instant `t`: one `utcnow()` evaluation per `def` line. -/
structure UtilsModuleDefaults where
  getObserverObsTime : Nat
  plotGroundTracksObsTime : Nat
deriving DecidableEq

/-- Importing the utils module at instant `t`. -/
def importUtilsModule (t : Nat) : UtilsModuleDefaults := ⟨t, t⟩

/-- A call `get_observer(lat, lon)` with the timestamp omitted, made at
wall-clock instant `callTime`: Python passes the stored default, so the
call instant does not enter the result at all. -/
def get_observer_defaulted (m : UtilsModuleDefaults) (callTime : Nat)
    (lat lon : String) : Observer :=
  get_observer lat lon m.getObserverObsTime

/-- A call `plot_ground_tracks(sat_groups)` with the timestamp omitted,
made at wall-clock instant `callTime`: Python passes the stored
default. -/
noncomputable def plot_ground_tracks_defaulted (m : UtilsModuleDefaults)
    (callTime : Nat) (sat_groups : List (String × List Sat)) : GroundTrackFig :=
  plot_ground_tracks sat_groups m.plotGroundTracksObsTime

/-! ### Group coloring

Both renderers independently evaluate
`colors = cm.nipy_spectral(np.linspace(0, 1, len(sat_groups)))` and then
use `colors[ind_group]`.  The 256-step colormap `cm.nipy_spectral` is an
external constant, modelled as an abstract function on the sample
positions. -/

/-- `np.linspace(0, 1, n)`: n evenly spaced samples from 0 to 1
inclusive; a single sample is the start point 0, zero samples give the
empty list. -/
def linspace01 (n : Nat) : List ℚ :=
  (List.range n).map fun i => if n ≤ 1 then 0 else (i : ℚ) / ((n : ℚ) - 1)

/-- The per-group color list computed inside `plot_polar_azel`. -/
def polarGroupColors {C : Type} (nipy_spectral : ℚ → C)
    (sat_groups : List (String × List Sat)) : List C :=
  (linspace01 sat_groups.length).map nipy_spectral

/-- The per-group color list computed inside `plot_ground_tracks` — the
same expression, evaluated independently in that function. -/
def groundGroupColors {C : Type} (nipy_spectral : ℚ → C)
    (sat_groups : List (String × List Sat)) : List C :=
  (linspace01 sat_groups.length).map nipy_spectral

/-! ### get_current_latlon

`get_current_latlon` evaluates `data["loc"].split(",")` and unpacks the
resulting list into the pair `(lat, lon)`; the unpacking raises a
`ValueError` unless the list has exactly two elements. -/

/-- Python `str.split(",")` on the character list: split at every comma;
the empty string yields one (empty) part. -/
def pySplitComma : List Char → List (List Char)
  | [] => [[]]
  | c :: cs =>
    if c = ',' then [] :: pySplitComma cs
    else
      match pySplitComma cs with
      | [] => [[c]]
      | p :: ps => (c :: p) :: ps

/-- `get_current_latlon` on the "loc" field of the location record:
`some (lat, lon)` when the split yields exactly two parts, otherwise the
tuple unpacking raises (`none`).  The parts are returned as they are,
unparsed. -/
def get_current_latlon (loc : List Char) : Option (List Char × List Char) :=
  match pySplitComma loc with
  | [lat, lon] => some (lat, lon)
  | _ => none

/-! ### Theorems -/

theorem dictInsert_fresh {α : Type} (d : List (String × α)) (k : String) (v : α)
    (h : k ∉ d.map Prod.fst) : dictInsert d k v = d ++ [(k, v)] := by
  unfold dictInsert
  rw [if_neg h]

theorem read_tle_files_foldl {α : Type} (rt : String → String → String → α)
    (fetch : String → List String) :
    ∀ (urls : List String) (acc : List (String × List α)),
      (urls.map groupKey).Nodup →
      (∀ u ∈ urls, groupKey u ∉ acc.map Prod.fst) →
      urls.foldl (fun d u => dictInsert d (groupKey u) (readSats rt (fetch u))) acc =
        acc ++ urls.map (fun u => (groupKey u, readSats rt (fetch u)))
  | [], acc, _, _ => by simp
  | u :: urls, acc, hnd, hfresh => by
    simp only [List.foldl_cons]
    rw [dictInsert_fresh _ _ _ (hfresh u (List.mem_cons_self u urls))]
    rw [List.map_cons, List.nodup_cons] at hnd
    rw [read_tle_files_foldl rt fetch urls
      (acc ++ [(groupKey u, readSats rt (fetch u))]) hnd.2 ?_]
    · rw [List.map_cons, List.append_assoc]
      rfl
    · intro v hv
      simp only [List.map_append, List.mem_append, List.map_cons, List.map_nil]
      rintro (hacc | hu)
      · exact hfresh v (List.mem_cons_of_mem u hv) hacc
      · simp only [List.mem_singleton] at hu
        exact hnd.1 (hu ▸ List.mem_map_of_mem groupKey hv)

theorem readSats_cons_cons_cons {α : Type} (rt : String → String → String → α)
    (a b c : String) (rest : List String) :
    readSats rt (a :: b :: c :: rest) = rt a b c :: readSats rt rest := by
  have hlen : (a :: b :: c :: rest).length = 3 + rest.length := by
    simp only [List.length_cons]
    omega
  simp only [readSats, hlen, List.range_add, List.filterMap_append, List.filterMap_map]
  have hr3 : List.range 3 = [0, 1, 2] := rfl
  rw [hr3]
  have hhead :
      List.filterMap
        (fun i => if i % 3 = 2 then
          some (rt ((a :: b :: c :: rest).getD (i - 2) "")
            ((a :: b :: c :: rest).getD (i - 1) "") ((a :: b :: c :: rest).getD i ""))
          else none) [0, 1, 2] = [rt a b c] := rfl
  rw [hhead]
  have htail :
      ((fun i => if i % 3 = 2 then
          some (rt ((a :: b :: c :: rest).getD (i - 2) "")
            ((a :: b :: c :: rest).getD (i - 1) "") ((a :: b :: c :: rest).getD i ""))
          else none) ∘ fun x => 3 + x) =
        fun i => if i % 3 = 2 then
          some (rt (rest.getD (i - 2) "") (rest.getD (i - 1) "") (rest.getD i ""))
          else none := by
    funext i
    simp only [Function.comp_apply]
    have hmod : (3 + i) % 3 = i % 3 := by omega
    rw [hmod]
    by_cases h : i % 3 = 2
    · rw [if_pos h, if_pos h]
      obtain ⟨m, rfl⟩ : ∃ m, i = m + 2 := ⟨i - 2, by omega⟩
      have e0 : 3 + (m + 2) - 2 = m + 3 := by omega
      have e1 : 3 + (m + 2) - 1 = m + 4 := by omega
      have e2 : 3 + (m + 2) = m + 5 := by omega
      have e3 : m + 2 - 2 = m := by omega
      have e4 : m + 2 - 1 = m + 1 := by omega
      rw [e0, e1, e2, e3, e4]
      rfl
    · rw [if_neg h, if_neg h]
  rw [htail]
  rfl

theorem readSats_length {α : Type} (rt : String → String → String → α) :
    ∀ lines : List String, (readSats rt lines).length = lines.length / 3
  | [] => rfl
  | [_] => by norm_num [readSats]
  | [_, _] => by
    norm_num [readSats]
    intro a ha hm
    exact absurd hm (by omega)
  | a :: b :: c :: rest => by
    rw [readSats_cons_cons_cons]
    have ih := readSats_length rt rest
    simp only [List.length_cons, ih]
    omega

theorem readSats_eq_spec {α : Type} (rt : String → String → String → α) :
    ∀ lines : List String, readSats rt lines = specTripletRecords rt lines
  | [] => rfl
  | [a] => by
    have h := readSats_length rt [a]
    norm_num at h
    exact h
  | [a, b] => by
    have h := readSats_length rt [a, b]
    norm_num at h
    exact h
  | a :: b :: c :: rest => by
    rw [readSats_cons_cons_cons, readSats_eq_spec rt rest]
    rfl

theorem readSats_get? {α : Type} (rt : String → String → String → α) :
    ∀ (lines : List String) (j : Nat), j < lines.length / 3 →
      (readSats rt lines).get? j =
        some (rt (lines.getD (3 * j) "") (lines.getD (3 * j + 1) "")
          (lines.getD (3 * j + 2) ""))
  | [], j, h => by simp only [List.length_nil] at h; omega
  | [a], j, h => by simp only [List.length_cons, List.length_nil] at h; omega
  | [a, b], j, h => by simp only [List.length_cons, List.length_nil] at h; omega
  | a :: b :: c :: rest, j, h => by
    rw [readSats_cons_cons_cons]
    match j with
    | 0 => rfl
    | j + 1 =>
      have hj : j < rest.length / 3 := by
        simp only [List.length_cons] at h
        omega
      have ih := readSats_get? rt rest j hj
      have e0 : 3 * (j + 1) = 3 * j + 2 + 1 := by omega
      have e1 : 3 * (j + 1) + 1 = 3 * j + 2 + 2 := by omega
      have e2 : 3 * (j + 1) + 2 = 3 * j + 2 + 3 := by omega
      simp only [List.get?_cons_succ, ih, e0, e1, e2]
      have g0 : (a :: b :: c :: rest).getD (3 * j + 2 + 1) "" = rest.getD (3 * j) "" := by
        have : 3 * j + 2 + 1 = (3 * j) + 1 + 1 + 1 := by omega
        rw [this]
        simp [List.getD_cons_succ]
      have g1 : (a :: b :: c :: rest).getD (3 * j + 2 + 2) "" = rest.getD (3 * j + 1) "" := by
        have : 3 * j + 2 + 2 = (3 * j + 1) + 1 + 1 + 1 := by omega
        rw [this]
        simp [List.getD_cons_succ]
      have g2 : (a :: b :: c :: rest).getD (3 * j + 2 + 3) "" = rest.getD (3 * j + 2) "" := by
        have : 3 * j + 2 + 3 = (3 * j + 2) + 1 + 1 + 1 := by omega
        rw [this]
        simp [List.getD_cons_succ]
      rw [g0, g1, g2]

/-- C1: for a catalog response of `n` lines, the loader loop of
`read_tle_files` produces exactly `n / 3` records, in file order, the
record at position `j` being parsed from the consecutive line triplet
`3*j`, `3*j + 1`, `3*j + 2`; it agrees with the spec-side consecutive
triplet grouping, and when `n` is not divisible by 3 the trailing lines
are dropped with no error (the function is total and the record count is
the floor of `n / 3`). -/
theorem C1_loader_triplet_grouping {α : Type} (rt : String → String → String → α)
    (lines : List String) :
    readSats rt lines = specTripletRecords rt lines ∧
    (readSats rt lines).length = lines.length / 3 ∧
    (∀ j : Nat, j < lines.length / 3 →
      (readSats rt lines).get? j =
        some (rt (lines.getD (3 * j) "") (lines.getD (3 * j + 1) "")
          (lines.getD (3 * j + 2) ""))) :=
  ⟨readSats_eq_spec rt lines, readSats_length rt lines, readSats_get? rt lines⟩

/-- Witness for C1 at a concrete seven-line catalog: two records are
produced from the first two triplets and the seventh line is dropped. -/
theorem C1_loader_triplet_grouping_witness :
    readSats (fun a b c => (a, b, c)) ["n1", "p1", "q1", "n2", "p2", "q2", "x"] =
        specTripletRecords (fun a b c => (a, b, c))
          ["n1", "p1", "q1", "n2", "p2", "q2", "x"] ∧
      (readSats (fun a b c => (a, b, c))
          ["n1", "p1", "q1", "n2", "p2", "q2", "x"]).length = 2 ∧
      (readSats (fun a b c => (a, b, c))
          ["n1", "p1", "q1", "n2", "p2", "q2", "x"]).get? 1 =
        some ("n2", "p2", "q2") := by
  obtain ⟨h1, h2, h3⟩ :=
    C1_loader_triplet_grouping (fun a b c : String => (a, b, c))
      ["n1", "p1", "q1", "n2", "p2", "q2", "x"]
  refine ⟨h1, ?_, ?_⟩
  · rw [h2]
    decide
  · have := h3 1 (by decide)
    rw [this]
    decide

theorem basenameChars_append_gps (s : List Char) :
    basenameChars (s ++ "/gps-ops.txt".data) = "gps-ops.txt".data := by
  unfold basenameChars
  rw [List.reverse_append]
  have hrev : ("/gps-ops.txt".data).reverse = "txt.spo-spg".data ++ '/' :: [] := by decide
  rw [hrev, List.append_assoc]
  rw [List.takeWhile_append_of_pos (by decide)]
  simp only [List.nil_append, List.takeWhile_cons]
  norm_num

/-- C7: group-key derivation is a deterministic function of the URL text
(it is a pure Lean function), and for every URL that ends in
"/gps-ops.txt" the derived key is exactly "GPS-OPS". -/
theorem C7_group_key_derivation (s : String) :
    groupKey (s ++ "/gps-ops.txt") = "GPS-OPS" := by
  unfold groupKey
  rw [String.data_append, basenameChars_append_gps]
  decide

/-- C6 as amended: when the derived group keys of the URL sequence are
pairwise distinct (as they are for the default catalog list),
`read_tle_files` returns one entry per URL, keyed by the upper-cased
file stem of that URL, in input order.  (The unrestricted claim is
refuted by `C6_counterexample`: two URLs with the same file stem
collapse into a single dictionary entry.) -/
theorem C6_one_entry_per_url {α : Type} (rt : String → String → String → α)
    (fetch : String → List String) (urls : List String)
    (hnd : (urls.map groupKey).Nodup) :
    read_tle_files rt fetch urls =
        urls.map (fun u => (groupKey u, readSats rt (fetch u))) ∧
      (read_tle_files rt fetch urls).map Prod.fst = urls.map groupKey ∧
      (read_tle_files rt fetch urls).length = urls.length := by
  have h := read_tle_files_foldl rt fetch urls [] hnd (by intro u _; simp)
  unfold read_tle_files
  rw [h]
  simp [List.map_map, Function.comp]

/-- Witness for C6 at the two default-style catalog URLs with distinct
stems: two entries, in input order, keyed "A" and "B". -/
theorem C6_one_entry_per_url_witness :
    read_tle_files (fun a b c => (a, b, c)) (fun _ => ["n", "l1", "l2"])
        ["h/a.txt", "h/b.txt"] =
      [("A", [("n", "l1", "l2")]), ("B", [("n", "l1", "l2")])] := by
  have h := C6_one_entry_per_url (fun a b c : String => (a, b, c))
    (fun _ => ["n", "l1", "l2"]) ["h/a.txt", "h/b.txt"] (by decide)
  rw [h.1]
  decide

/-- Counterexample to C6 as stated: for the URL sequence
["a/x.txt", "b/x.txt"] (two URLs, same file stem) the returned mapping
has a single entry, not one entry per URL; the second fetch overwrites
the records of the first. -/
theorem C6_counterexample :
    (read_tle_files (fun a b c => (a, b, c))
        (fun u => if u = "a/x.txt" then ["n1", "l1", "l2"] else ["n2", "l3", "l4"])
        ["a/x.txt", "b/x.txt"]).length = 1 ∧
      ("a/x.txt" :: "b/x.txt" :: []).length = 2 ∧
      read_tle_files (fun a b c => (a, b, c))
        (fun u => if u = "a/x.txt" then ["n1", "l1", "l2"] else ["n2", "l3", "l4"])
        ["a/x.txt", "b/x.txt"] = [("X", [("n2", "l3", "l4")])] := by
  refine ⟨?_, rfl, ?_⟩ <;> decide

theorem computeGroup_spec (compute : Observer → Sat → Sat) (observer : Observer) :
    ∀ g : List Sat,
      computeGroup compute observer g = (g.map (compute observer), g)
  | [] => rfl
  | s :: rest => by
    simp only [computeGroup, computeGroup_spec compute observer rest, List.map_cons]

theorem compute_sat_positions_spec (compute : Observer → Sat → Sat)
    (observer : Observer) :
    ∀ groups : List (String × List Sat),
      compute_sat_positions compute observer groups =
        (groups.map (fun g => (g.1, g.2.map (compute observer))),
          (groups.map Prod.snd).flatten)
  | [] => rfl
  | (k, g) :: rest => by
    simp only [compute_sat_positions, computeGroup_spec,
      compute_sat_positions_spec compute observer rest, List.map_cons,
      List.flatten_cons]

/-- C9: `compute_sat_positions` hands back the mapping it traversed, with
the group keys, the group sizes and the record order unchanged, each
record being the result of one compute-step invocation on the original
record at its position; the invocation trace is exactly the records of
the groups traversed sequentially group by group, so the compute step
runs exactly once per record. -/
theorem C9_compute_positions_frame (compute : Observer → Sat → Sat)
    (observer : Observer) (sat_groups : List (String × List Sat)) :
    (compute_sat_positions compute observer sat_groups).1 =
        sat_groups.map (fun g => (g.1, g.2.map (compute observer))) ∧
      (compute_sat_positions compute observer sat_groups).1.map Prod.fst =
        sat_groups.map Prod.fst ∧
      (compute_sat_positions compute observer sat_groups).1.map
          (fun g => g.2.length) =
        sat_groups.map (fun g => g.2.length) ∧
      (compute_sat_positions compute observer sat_groups).2 =
        (sat_groups.map Prod.snd).flatten ∧
      (compute_sat_positions compute observer sat_groups).2.length =
        (sat_groups.map (fun g => g.2.length)).sum := by
  have h := compute_sat_positions_spec compute observer sat_groups
  rw [h]
  refine ⟨rfl, ?_, ?_, rfl, ?_⟩
  · simp [List.map_map, Function.comp]
  · simp [List.map_map, Function.comp]
  · simp only [List.length_flatten, List.map_map]
    rfl

/-- C2: per satellite group handed to the polar renderer, a satellite is
in the plotted set exactly when its computed elevation is strictly
greater than 0; in particular a satellite at elevation exactly 0 is
excluded. -/
theorem C2_polar_visibility_filter (sat_group : List Sat) (s : Sat) :
    (s ∈ visibleSats sat_group ↔ s ∈ sat_group ∧ s.alt > 0) ∧
      (s.alt = 0 → s ∉ visibleSats sat_group) := by
  have hmem : s ∈ visibleSats sat_group ↔ s ∈ sat_group ∧ s.alt > 0 := by
    simp [visibleSats, List.mem_filter]
  refine ⟨hmem, fun h0 hv => ?_⟩
  have h2 := (hmem.mp hv).2
  rw [h0] at h2
  exact lt_irrefl 0 h2

/-- Witness for C2: the horizon satellite has elevation exactly 0 and is
excluded from the plotted set of its own group. -/
theorem C2_polar_visibility_filter_witness :
    horizonSat.alt = 0 ∧ horizonSat ∉ visibleSats [horizonSat] :=
  ⟨rfl, (C2_polar_visibility_filter [horizonSat] horizonSat).2 rfl⟩

/-- C3: for a satellite whose stored elevation is `e` degrees with
`0 ≤ e ≤ 90` (stored in radians, so `alt = deg2rad e`), the plotted
radial coordinate `90 - np.rad2deg(alt)` used by `polarPoints` equals
`90 - e`; so a zenith satellite (e = 90) plots at radius 0 and a horizon
satellite (e = 0) plots at radius 90. -/
theorem C3_polar_radius_is_90_minus_elevation (e : ℝ) (s : Sat)
    (h0 : 0 ≤ e) (h90 : e ≤ 90) (halt : s.alt = deg2rad e) :
    plottedRadius s = 90 - e := by
  unfold plottedRadius rad2deg
  rw [halt]
  unfold deg2rad
  have hpi := Real.pi_ne_zero
  field_simp

/-- Witness for C3 at e = 90: the zenith satellite plots at radius 0. -/
theorem C3_polar_radius_witness : plottedRadius zenithSat = 0 := by
  have h := C3_polar_radius_is_90_minus_elevation 90 zenithSat
    (by norm_num) (by norm_num) rfl
  rw [h]
  norm_num

/-- C8: the ground-track renderer plots every group, and within a group
one point per satellite record (its sub-latitude/sub-longitude in
degrees), at the record position, with no elevation-based filter: every
record contributes its point, in particular every record at or below the
horizon. -/
theorem C8_ground_tracks_unfiltered (sat_groups : List (String × List Sat))
    (obs_time : Nat) :
    (∀ k g, (k, g) ∈ sat_groups →
        (k, groundTrackPoints g) ∈ (plot_ground_tracks sat_groups obs_time).groups) ∧
      (∀ g : List Sat, (groundTrackPoints g).length = g.length) ∧
      (∀ (g : List Sat) (j : Nat) (hj : j < g.length),
        (groundTrackPoints g).get? j = some (groundTrackPoint (g.get ⟨j, hj⟩))) ∧
      (∀ (g : List Sat) (s : Sat), s ∈ g → s.alt ≤ 0 →
        groundTrackPoint s ∈ groundTrackPoints g) := by
  refine ⟨?_, ?_, ?_, ?_⟩
  · intro k g hmem
    exact List.mem_map_of_mem (fun g => (g.1, groundTrackPoints g.2)) hmem
  · intro g
    simp [groundTrackPoints]
  · intro g j hj
    simp only [groundTrackPoints, List.get?_map, List.get?_eq_get hj]
    rfl
  · intro g s hmem _
    exact List.mem_map_of_mem groundTrackPoint hmem

/-- Witness for C8: a satellite below the horizon still contributes its
ground-track point, and its group is plotted. -/
theorem C8_ground_tracks_unfiltered_witness :
    belowHorizonSat.alt ≤ 0 ∧
      groundTrackPoint belowHorizonSat ∈ groundTrackPoints [belowHorizonSat] ∧
      ("G", groundTrackPoints [belowHorizonSat]) ∈
        (plot_ground_tracks [("G", [belowHorizonSat])] 0).groups ∧
      (groundTrackPoints [belowHorizonSat]).get? 0 =
        some (groundTrackPoint ([belowHorizonSat].get ⟨0, by norm_num⟩)) := by
  obtain ⟨h1, h2, h3, h4⟩ := C8_ground_tracks_unfiltered [("G", [belowHorizonSat])] 0
  have halt : belowHorizonSat.alt ≤ 0 := by
    rw [show belowHorizonSat.alt = (-1 : ℝ) from rfl]
    norm_num
  exact ⟨halt,
    h4 [belowHorizonSat] belowHorizonSat (List.mem_singleton.mpr rfl) halt,
    h1 "G" [belowHorizonSat] (List.mem_singleton.mpr rfl),
    h3 [belowHorizonSat] 0 (by norm_num)⟩

/-- C5 is refuted by the code: the timestamp default of `get_observer`
(and of `plot_ground_tracks`) is the single `utcnow()` value captured at
module import.  With the module imported at instant 100, two defaulted
calls made at the distinct instants 200 and 300 both use timestamp 100:
they do not use the instant of the call and they do not differ. -/
theorem C5_default_timestamp_is_import_time :
    (get_observer_defaulted (importUtilsModule 100) 200 "10.0" "20.0").date = 100 ∧
      (get_observer_defaulted (importUtilsModule 100) 300 "10.0" "20.0").date = 100 ∧
      (get_observer_defaulted (importUtilsModule 100) 200 "10.0" "20.0").date =
        (get_observer_defaulted (importUtilsModule 100) 300 "10.0" "20.0").date ∧
      (200 : Nat) ≠ 300 ∧
      (plot_ground_tracks_defaulted (importUtilsModule 100) 200 []).shadeTime = 100 ∧
      (plot_ground_tracks_defaulted (importUtilsModule 100) 300 []).shadeTime =
        (plot_ground_tracks_defaulted (importUtilsModule 100) 200 []).shadeTime :=
  ⟨rfl, rfl, rfl, by decide, rfl, rfl⟩

/-- C4: group colors are a deterministic pure function of (group index,
group count): any two runs over group mappings with the same number of
groups produce identical color lists, and the polar and ground-track
renderers assign the same color at every group index for the same group
count. -/
theorem C4_deterministic_group_colors {C : Type} (nipy_spectral : ℚ → C)
    (groups1 groups2 : List (String × List Sat))
    (hlen : groups1.length = groups2.length) :
    polarGroupColors nipy_spectral groups1 = polarGroupColors nipy_spectral groups2 ∧
      groundGroupColors nipy_spectral groups1 =
        groundGroupColors nipy_spectral groups2 ∧
      polarGroupColors nipy_spectral groups1 =
        groundGroupColors nipy_spectral groups1 ∧
      ∀ i : Nat, (polarGroupColors nipy_spectral groups1).get? i =
        (groundGroupColors nipy_spectral groups2).get? i := by
  unfold polarGroupColors groundGroupColors
  rw [hlen]
  exact ⟨rfl, rfl, rfl, fun _ => rfl⟩

/-- Witness for C4: two different two-group mappings get the same color
list, here evaluated with the identity colormap: the samples 0 and 1. -/
theorem C4_deterministic_group_colors_witness :
    polarGroupColors (fun q : ℚ => q) [("A", ([] : List Sat)), ("B", [])] =
        polarGroupColors (fun q : ℚ => q) [("C", ([] : List Sat)), ("D", [])] ∧
      polarGroupColors (fun q : ℚ => q) [("A", ([] : List Sat)), ("B", [])] = [0, 1] := by
  have h := C4_deterministic_group_colors (fun q : ℚ => q)
    [("A", ([] : List Sat)), ("B", [])] [("C", []), ("D", [])] rfl
  refine ⟨h.1, ?_⟩
  norm_num [polarGroupColors, linspace01, List.range_succ]

theorem pySplitComma_length :
    ∀ l : List Char, (pySplitComma l).length = l.count ',' + 1
  | [] => rfl
  | c :: cs => by
    by_cases h : c = ','
    · simp only [pySplitComma, if_pos h, List.length_cons, pySplitComma_length cs]
      rw [h, List.count_cons_self]
    · simp only [pySplitComma, if_neg h]
      have hlen := pySplitComma_length cs
      have hcount : (c :: cs).count ',' = cs.count ',' := by
        rw [List.count_cons]
        simp [h]
      rw [hcount]
      match hsp : pySplitComma cs with
      | [] => rw [hsp] at hlen; simp at hlen
      | p :: ps =>
        rw [hsp] at hlen
        simpa using hlen

theorem pySplitComma_no_comma (l : List Char) (h : ',' ∉ l) :
    pySplitComma l = [l] := by
  induction l with
  | nil => rfl
  | cons c cs ih =>
    have hc : ¬c = ',' := fun hc => h (hc ▸ List.mem_cons_self c cs)
    have hcs : ',' ∉ cs := fun hm => h (List.mem_cons_of_mem c hm)
    simp only [pySplitComma, if_neg hc, ih hcs]

theorem pySplitComma_one_comma (a b : List Char) (ha : ',' ∉ a) (hb : ',' ∉ b) :
    pySplitComma (a ++ ',' :: b) = [a, b] := by
  induction a with
  | nil => simp [pySplitComma, pySplitComma_no_comma b hb]
  | cons c cs ih =>
    have hc : ¬c = ',' := fun hc => ha (hc ▸ List.mem_cons_self c cs)
    have hcs : ',' ∉ cs := fun hm => ha (List.mem_cons_of_mem c hm)
    simp only [List.cons_append, pySplitComma, if_neg hc, List.append_eq, ih hcs]

/-- C10: when the "loc" string contains exactly one comma, written
`a ++ "," ++ b` with comma-free `a` and `b`, `get_current_latlon`
returns exactly the unparsed substrings before and after that comma;
when the comma count differs from one, the call raises instead of
returning (modelled as `none`). -/
theorem C10_latlon_split (a b l : List Char) (ha : ',' ∉ a) (hb : ',' ∉ b)
    (hl : l.count ',' ≠ 1) :
    get_current_latlon (a ++ ',' :: b) = some (a, b) ∧
      get_current_latlon l = none := by
  constructor
  · unfold get_current_latlon
    rw [pySplitComma_one_comma a b ha hb]
  · unfold get_current_latlon
    have hlen := pySplitComma_length l
    match hsp : pySplitComma l with
    | [] => rfl
    | [_] => rfl
    | [_, _] =>
      rw [hsp] at hlen
      simp only [List.length_cons, List.length_nil] at hlen
      omega
    | _ :: _ :: _ :: _ => rfl

/-- Witness for C10: the loc string "33.74,-84.39" splits into the raw
substrings "33.74" and "-84.39", and the comma-free loc string "Atlanta"
raises. -/
theorem C10_latlon_split_witness :
    get_current_latlon ("33.74,-84.39".data) = some ("33.74".data, "-84.39".data) ∧
      get_current_latlon ("Atlanta".data) = none := by
  have h := C10_latlon_split ("33.74".data) ("-84.39".data) ("Atlanta".data)
    (by decide) (by decide) (by decide)
  exact ⟨h.1, h.2⟩
